import Mathlib

/-!
Verification of the Transform subsystem of groundmotion-processing,
centred on `gmprocess/metrics/transform/integrate.py`.

The embedding models floating-point sample values as `Option ℚ`:
`some q` stands for a finite float of exact value `q` (all arithmetic
performed by the integration routine on the inputs considered here is
exact in binary floating point, so rationals are faithful), and `none`
stands for a non-finite value (IEEE NaN), which is absorbing for the
arithmetic used.
-/

set_option autoImplicit false

namespace GMP

/-- A sample value: `some q` is a finite float, `none` is NaN. -/
abbrev Val : Type := Option ℚ

/-- Floating-point addition on sample values: NaN is absorbing. -/
def vadd : Val → Val → Val
  | some x, some y => some (x + y)
  | _, _ => none

/-- One trapezoid increment, `dx * (a + b) / 2`, as computed by
scipy cumtrapz (`d * (y[1:] + y[:-1]) / 2.0`): NaN is absorbing. -/
def vtrap (dx : ℚ) : Val → Val → Val
  | some a, some b => some (dx * (a + b) / 2)
  | _, _ => none

/-- The list of trapezoid increments `dx * (y[i] + y[i+1]) / 2` of
consecutive sample pairs, as formed by scipy cumtrapz before the
cumulative sum.  Empty for inputs of length 0 or 1. -/
def trapezoids (dx : ℚ) : List Val → List Val
  | a :: b :: rest => vtrap dx a b :: trapezoids dx (b :: rest)
  | _ => []

/-- Running sum with accumulator `acc`, as `np.cumsum` starting from 0. -/
def cumsum (acc : Val) : List Val → List Val
  | [] => []
  | x :: xs => vadd acc x :: cumsum (vadd acc x) xs

/-- Modelled from obspy (an external dependency of the repository, not
part of it): `obspy.signal.differentiate_and_integrate.integrate_cumtrapz`
computes `np.concatenate([[0], cumtrapz(data, dx=dx)])`, i.e. the
cumulative trapezoidal integral with a 0 prepended so that an input of
`n ≥ 1` samples yields `n` output samples (an empty input yields the
one-sample output `[0]`). -/
def integrate_cumtrapz (dx : ℚ) (data : List Val) : List Val :=
  some 0 :: cumsum (some 0) (trapezoids dx data)

/-- Header fields of a trace that the Transform subsystem reads or
writes: the station-identifying metadata (network, station, channel,
start time), the sampling interval `delta`, and the `units` tag. -/
structure Stats where
  network : String
  station : String
  channel : String
  starttime : ℚ
  delta : ℚ
  units : String
deriving DecidableEq, Repr

/-- A single-channel time series: samples plus header. -/
structure Trace where
  data : List Val
  stats : Stats
deriving DecidableEq, Repr

/-- Modelled from obspy (external dependency): `Trace.integrate()` with
the default cumtrapz method replaces the trace's data by
`integrate_cumtrapz(data, dx=stats.delta)`.  obspy performs this
operation in place on the caller's trace object and returns `self`;
this definition gives the resulting trace value. -/
def Trace.integrate (trace : Trace) : Trace :=
  { data := integrate_cumtrapz trace.stats.delta trace.data
    stats := trace.stats }

/-- Modelled from the spec: `StationTrace(data=..., header=...)`
(module `gmprocess.stationtrace`, not under src/) constructs a trace
holding the given samples and header; per the spec, station metadata is
carried by value, unchanged, onto the constructed trace. -/
def StationTrace.make (data : List Val) (header : Stats) : Trace :=
  { data := data, stats := header }

namespace Integrate

/-- One iteration of the loop in `Integrate.get_integral`
(integrate.py lines 32-37):
`integrated_trace = trace.integrate()`;
`integrated_trace.stats['units'] = 'veloc'`;
`strace = StationTrace(data=integrated_trace.data, header=integrated_trace.stats)`.
Returns the trace appended to the result stream. -/
def loopBody (trace : Trace) : Trace :=
  let integrated_trace := Trace.integrate trace
  let retagged := { integrated_trace with
                    stats := { integrated_trace.stats with units := "veloc" } }
  StationTrace.make retagged.data retagged.stats

/-- `Integrate.get_integral` (integrate.py lines 24-38): starts from an
empty `StationStream([])` and appends one `StationTrace` per input
trace, in iteration order.  A stream is modelled as its list of traces
(modelled from the spec for `StationStream`, not under src/: an ordered
collection of traces, `append` adding at the end). -/
def get_integral : List Trace → List Trace
  | [] => []
  | trace :: rest => loopBody trace :: get_integral rest

/-- The value of a caller's input trace after one iteration of the
`get_integral` loop.  Modelled from obspy (external dependency):
`Trace.integrate()` operates in place on the trace object and returns
`self`, so line 33 replaces the caller's `trace.data` by the cumulative
integral, and line 34 (`integrated_trace.stats['units'] = 'veloc'`)
then mutates that same object's header. -/
def tracePost (trace : Trace) : Trace :=
  { data := integrate_cumtrapz trace.stats.delta trace.data
    stats := { trace.stats with units := "veloc" } }

/-- The values of the caller's input traces after `get_integral` has
run (see `tracePost`). -/
def get_integral_post (transform_data : List Trace) : List Trace :=
  transform_data.map tracePost

end Integrate

/-- Modelled from the spec: the base `Transform` constructor
(`gmprocess.metrics.transform.transform`, not under src/) stores the
source stream and the three optional parameters on the instance. -/
structure Transform where
  transform_data : List Trace
  damping : Option ℚ
  period : Option ℚ
  times : Option (List ℚ)
deriving DecidableEq, Repr

/-- The `Integrate` object: the base `Transform` state plus the eagerly
computed `result`. -/
structure IntegrateObj extends Transform where
  result : List Trace
deriving DecidableEq, Repr

/-- `Integrate.__init__` (integrate.py lines 9-22): calls
`super().__init__(transform_data, damping=None, period=None, times=None)`
— with literal `None` for all three parameters, whatever the caller
supplied — and then sets `self.result = self.get_integral()`. -/
def Integrate.init (transform_data : List Trace)
    (damping period : Option ℚ) (times : Option (List ℚ)) : IntegrateObj :=
  { transform_data := transform_data
    damping := none
    period := none
    times := none
    result := Integrate.get_integral transform_data }

/-! ### Concrete inputs used by witnesses and counterexamples -/

/-- A concrete header with the acceleration units tag. -/
def statsAcc : Stats :=
  { network := "BK", station := "CMB", channel := "HNZ"
    starttime := 0, delta := 1, units := "acc" }

/-- The same header after the units rewrite performed by `Integrate`. -/
def statsVeloc : Stats :=
  { network := "BK", station := "CMB", channel := "HNZ"
    starttime := 0, delta := 1, units := "veloc" }

/-- The spec's test scenario: samples `[0,1,2,1,0]`, sampling interval 1. -/
def tr3 : Trace := { data := [some 0, some 1, some 2, some 1, some 0], stats := statsAcc }

/-- A trace with zero samples. -/
def trEmpty : Trace := { data := [], stats := statsAcc }

/-- A trace whose second sample is NaN. -/
def trNan : Trace := { data := [some 0, none], stats := statsAcc }

/-- A two-sample trace used to exhibit the in-place mutation. -/
def trMut : Trace := { data := [some 0, some 1], stats := statsAcc }

/-! ### Helper lemmas -/

theorem get_integral_eq_map (transform_data : List Trace) :
    Integrate.get_integral transform_data = transform_data.map Integrate.loopBody := by
  induction transform_data with
  | nil => rfl
  | cons trace rest ih => simp [Integrate.get_integral, ih]

theorem cumsum_length (acc : Val) (l : List Val) : (cumsum acc l).length = l.length := by
  induction l generalizing acc with
  | nil => rfl
  | cons x xs ih => simp [cumsum, ih]

theorem trapezoids_length (dx : ℚ) (l : List Val) :
    (trapezoids dx l).length = l.length - 1 := by
  induction l with
  | nil => rfl
  | cons a rest ih =>
    cases rest with
    | nil => rfl
    | cons b rest2 =>
      simp only [trapezoids, List.length_cons, ih]
      omega

theorem loopBody_data (trace : Trace) :
    (Integrate.loopBody trace).data = integrate_cumtrapz trace.stats.delta trace.data := rfl

theorem loopBody_stats (trace : Trace) :
    (Integrate.loopBody trace).stats = { trace.stats with units := "veloc" } := rfl

theorem loopBody_data_length (trace : Trace) (h : trace.data ≠ []) :
    (Integrate.loopBody trace).data.length = trace.data.length := by
  rw [loopBody_data]
  simp only [integrate_cumtrapz, List.length_cons, cumsum_length, trapezoids_length]
  have : trace.data.length ≠ 0 := fun h0 => h (List.length_eq_zero.mp h0)
  omega

theorem vadd_none_right (a : Val) : vadd a none = none := by cases a <;> rfl

theorem vtrap_none_left (dx : ℚ) (b : Val) : vtrap dx none b = none := by cases b <;> rfl

theorem vtrap_none_right (dx : ℚ) (a : Val) : vtrap dx a none = none := by cases a <;> rfl

theorem cumsum_mem_none (acc : Val) (l : List Val) (h : none ∈ l) :
    none ∈ cumsum acc l := by
  induction l generalizing acc with
  | nil => cases h
  | cons x xs ih =>
    rcases List.mem_cons.mp h with hx | hxs
    · subst hx
      exact List.mem_cons.mpr (Or.inl (vadd_none_right acc).symm)
    · exact List.mem_cons.mpr (Or.inr (ih (vadd acc x) hxs))

theorem trapezoids_mem_none (dx : ℚ) (l : List Val) (h2 : 2 ≤ l.length)
    (h : none ∈ l) : none ∈ trapezoids dx l := by
  induction l with
  | nil => cases h
  | cons a rest ih =>
    cases rest with
    | nil => simp at h2
    | cons b rest2 =>
      rcases List.mem_cons.mp h with ha | hbr
      · subst ha
        exact List.mem_cons.mpr (Or.inl (vtrap_none_left dx b).symm)
      · rcases List.mem_cons.mp hbr with hb | hr2
        · subst hb
          exact List.mem_cons.mpr (Or.inl (vtrap_none_right dx a).symm)
        · have hlen : 2 ≤ (b :: rest2).length := by
            cases rest2 with
            | nil => cases hr2
            | cons c rest3 => simp
          exact List.mem_cons.mpr (Or.inr (ih hlen hbr))

theorem loopBody_mem_none (trace : Trace) (h2 : 2 ≤ trace.data.length)
    (h : none ∈ trace.data) : none ∈ (Integrate.loopBody trace).data := by
  rw [loopBody_data]
  exact List.mem_cons.mpr (Or.inr (cumsum_mem_none _ _
    (trapezoids_mem_none trace.stats.delta trace.data h2 h)))

/-! ### Claim theorems -/

/-- C1: For every non-empty input Stream, the result Stream produced by
`Integrate.get_integral` contains exactly one output Trace per input
Trace, and the output Trace at each index is obtained from the input
Trace at the same index, so the order is preserved. -/
theorem integrate_one_output_trace_per_input_in_order
    (transform_data : List Trace) (h : transform_data ≠ []) :
    (Integrate.get_integral transform_data).length = transform_data.length ∧
    ∀ i : ℕ, (Integrate.get_integral transform_data).get? i =
      (transform_data.get? i).map Integrate.loopBody := by
  refine ⟨?_, fun i => ?_⟩
  · rw [get_integral_eq_map]
    exact List.length_map _ _
  · rw [get_integral_eq_map]
    exact List.get?_map _ _ _

/-- Witness for C1 at the concrete one-trace stream `[tr3]`. -/
theorem integrate_one_output_trace_per_input_in_order_witness :
    (Integrate.get_integral [tr3]).length = [tr3].length ∧
    ∀ i : ℕ, (Integrate.get_integral [tr3]).get? i =
      (([tr3] : List Trace).get? i).map Integrate.loopBody :=
  integrate_one_output_trace_per_input_in_order [tr3] (List.cons_ne_nil _ _)

/-- C2: Every Trace of the result Stream of `Integrate.get_integral`
carries the units tag `"veloc"` (the repository's velocity tag),
regardless of the input Trace's units value. -/
theorem integrate_output_units_always_veloc
    (transform_data : List Trace) (otrace : Trace)
    (h : otrace ∈ Integrate.get_integral transform_data) :
    otrace.stats.units = "veloc" := by
  rw [get_integral_eq_map] at h
  obtain ⟨trace, _, rfl⟩ := List.mem_map.mp h
  rfl

/-- Witness for C2 at the acceleration-tagged trace `tr3`. -/
theorem integrate_output_units_always_veloc_witness :
    (Integrate.loopBody tr3).stats.units = "veloc" :=
  integrate_output_units_always_veloc [tr3] (Integrate.loopBody tr3)
    (by simp [Integrate.get_integral])

/-- C3: On the Stream holding one Trace with samples `[0,1,2,1,0]`,
sampling interval 1 and units `"acc"`, `Integrate.get_integral` returns
exactly one Trace, of the same length, with units `"veloc"`, whose
samples are the cumulative trapezoidal integral `[0, 1/2, 2, 7/2, 4]`. -/
theorem integrate_trapezoid_scenario_exact :
    Integrate.get_integral [tr3] =
      [{ data := [some 0, some (1/2), some 2, some (7/2), some 4],
         stats := statsVeloc }] ∧
    (Integrate.get_integral [tr3]).length = 1 := by
  refine ⟨?_, rfl⟩
  simp [Integrate.get_integral, Integrate.loopBody, Trace.integrate, StationTrace.make,
        integrate_cumtrapz, trapezoids, cumsum, vtrap, vadd, tr3, statsAcc, statsVeloc]
  norm_num

/-- Counterexample for C4: for a Trace with zero samples, the output
Trace of `Integrate.get_integral` has one sample (the prepended 0), so
the output length differs from the input length. -/
theorem integrate_zero_sample_trace_length_counterexample :
    ((Integrate.get_integral [trEmpty]).headD trEmpty).data.length ≠
      trEmpty.data.length := by
  decide

/-- C4 (amended): for every input Trace with at least one sample, the
output Trace of `Integrate.get_integral` has the same number of samples
and holds the value 0 at index 0; a Trace with zero samples instead
yields the one-sample output `[0]`. -/
theorem integrate_length_preserved_for_nonempty_traces
    (transform_data : List Trace) (i : ℕ) (trace otrace : Trace)
    (hin : transform_data.get? i = some trace)
    (hout : (Integrate.get_integral transform_data).get? i = some otrace) :
    (trace.data ≠ [] → otrace.data.length = trace.data.length ∧
      otrace.data.get? 0 = some (some 0)) ∧
    (trace.data = [] → otrace.data = [some 0]) := by
  rw [get_integral_eq_map, List.get?_map, hin, Option.map_some'] at hout
  obtain rfl := Option.some.inj hout
  refine ⟨fun hne => ⟨loopBody_data_length trace hne, rfl⟩, fun hnil => ?_⟩
  rw [loopBody_data, hnil]
  rfl

/-- Witness for the amended C4 at index 0 of the stream `[tr3]`. -/
theorem integrate_length_preserved_for_nonempty_traces_witness :
    (tr3.data ≠ [] → (Integrate.loopBody tr3).data.length = tr3.data.length ∧
      (Integrate.loopBody tr3).data.get? 0 = some (some 0)) ∧
    (tr3.data = [] → (Integrate.loopBody tr3).data = [some 0]) :=
  integrate_length_preserved_for_nonempty_traces [tr3] 0 tr3
    (Integrate.loopBody tr3) rfl rfl

/-- C5 failing input: on the Stream holding the two-sample trace
`trMut`, the caller's input trace ends up holding the integrated data
`[0, 1/2]` with units rewritten to `"veloc"` — it is not left
unchanged (obspy's `Trace.integrate` operates in place and returns
`self`, and line 34 of integrate.py then mutates that same object's
header). -/
theorem integrate_mutates_caller_traces_at_failing_input :
    Integrate.get_integral_post [trMut] =
      [{ data := [some 0, some (1/2)], stats := statsVeloc }] ∧
    Integrate.get_integral_post [trMut] ≠ [trMut] := by
  have heq : Integrate.get_integral_post [trMut] =
      [{ data := [some 0, some (1/2)], stats := statsVeloc }] := by
    simp [Integrate.get_integral_post, Integrate.tracePost, integrate_cumtrapz,
          trapezoids, cumsum, vtrap, vadd, trMut, statsAcc, statsVeloc]
  exact ⟨heq, fun h => absurd
    (congrArg (fun l => (l.headD trMut).stats.units) h) (by decide)⟩

/-- C6: the output Trace at each index of the result of
`Integrate.get_integral` carries, by value, the same station metadata
(network, station, channel, start time) and sampling interval as the
input Trace at the same index. -/
theorem integrate_station_metadata_preserved
    (transform_data : List Trace) (i : ℕ) (trace otrace : Trace)
    (hin : transform_data.get? i = some trace)
    (hout : (Integrate.get_integral transform_data).get? i = some otrace) :
    otrace.stats.network = trace.stats.network ∧
    otrace.stats.station = trace.stats.station ∧
    otrace.stats.channel = trace.stats.channel ∧
    otrace.stats.starttime = trace.stats.starttime ∧
    otrace.stats.delta = trace.stats.delta := by
  rw [get_integral_eq_map, List.get?_map, hin, Option.map_some'] at hout
  obtain rfl := Option.some.inj hout
  exact ⟨rfl, rfl, rfl, rfl, rfl⟩

/-- Witness for C6 at index 0 of the stream `[tr3]`. -/
theorem integrate_station_metadata_preserved_witness :
    (Integrate.loopBody tr3).stats.network = tr3.stats.network ∧
    (Integrate.loopBody tr3).stats.station = tr3.stats.station ∧
    (Integrate.loopBody tr3).stats.channel = tr3.stats.channel ∧
    (Integrate.loopBody tr3).stats.starttime = tr3.stats.starttime ∧
    (Integrate.loopBody tr3).stats.delta = tr3.stats.delta :=
  integrate_station_metadata_preserved [tr3] 0 tr3 (Integrate.loopBody tr3) rfl rfl

/-- Counterexample for C7: on the Stream holding the trace `trNan`,
whose second sample is NaN, `Integrate.get_integral` raises no error:
it returns a result Stream with one Trace, and the NaN propagates into
that Trace's samples. -/
theorem integrate_nonfinite_counterexample :
    (Integrate.get_integral [trNan]).length = 1 ∧
    none ∈ ((Integrate.get_integral [trNan]).headD trNan).data := by
  exact ⟨rfl, by decide⟩

/-- C7 (amended): `Integrate.get_integral` performs no finiteness
check: it always returns a result Stream with one Trace per input, and
whenever an input Trace has at least two samples one of which is
non-finite, the non-finite value propagates into the samples of some
output Trace. -/
theorem integrate_nonfinite_propagates_no_error
    (transform_data : List Trace) (trace : Trace) (h1 : trace ∈ transform_data)
    (h2 : 2 ≤ trace.data.length) (h3 : none ∈ trace.data) :
    (Integrate.get_integral transform_data).length = transform_data.length ∧
    ∃ otrace ∈ Integrate.get_integral transform_data, none ∈ otrace.data := by
  refine ⟨by rw [get_integral_eq_map]; exact List.length_map _ _, ?_⟩
  refine ⟨Integrate.loopBody trace, ?_, loopBody_mem_none trace h2 h3⟩
  rw [get_integral_eq_map]
  exact List.mem_map_of_mem _ h1

/-- Witness for the amended C7 at the concrete stream `[trNan]`. -/
theorem integrate_nonfinite_propagates_no_error_witness :
    (Integrate.get_integral [trNan]).length = [trNan].length ∧
    ∃ otrace ∈ Integrate.get_integral [trNan], none ∈ otrace.data :=
  integrate_nonfinite_propagates_no_error [trNan] trNan
    (List.mem_cons_self _ _) (by decide) (by decide)

/-- Counterexample for C8: constructing `Integrate` on an empty Stream
does not fail — the invocation completes and yields a (well-defined)
empty result Stream. -/
theorem integrate_empty_stream_counterexample :
    (Integrate.init [] none none none).result = [] := rfl

/-- C8 (amended): invoking `Integrate` on an empty input Stream raises
no error and produces an empty result Stream, for every choice of the
optional parameters. -/
theorem integrate_empty_stream_returns_empty
    (damping period : Option ℚ) (times : Option (List ℚ)) :
    (Integrate.init [] damping period times).result = [] := rfl

/-- C9: the result of `Integrate` does not depend on the `damping`,
`period` and `times` parameters — any two assignments yield equal
result Streams — and the parameters stored on the object are `none`
whatever the caller supplied. -/
theorem integrate_result_ignores_parameters
    (transform_data : List Trace) (d1 p1 : Option ℚ) (t1 : Option (List ℚ))
    (d2 p2 : Option ℚ) (t2 : Option (List ℚ)) :
    (Integrate.init transform_data d1 p1 t1).result =
      (Integrate.init transform_data d2 p2 t2).result ∧
    (Integrate.init transform_data d1 p1 t1).damping = none ∧
    (Integrate.init transform_data d1 p1 t1).period = none ∧
    (Integrate.init transform_data d1 p1 t1).times = none :=
  ⟨rfl, rfl, rfl, rfl⟩

/-- C10: invoked on an input with zero Traces, `Integrate.get_integral`
raises no error and returns the empty Stream. -/
theorem integrate_empty_input_yields_empty_stream :
    Integrate.get_integral [] = ([] : List Trace) := rfl

end GMP
